import Mathlib

/-!
Shallow embedding of `update/provisioner.go` from
`packer-provisioner-windows-update`: the configuration preparation step, the
PowerShell command encoder (single-quote escaping, UTF-16LE + base64 payload),
and the update/restart orchestration loop, together with theorems checking the
specification's claims against these definitions.

Machine integers: Go `time.Duration` and the exit statuses are signed 64-bit
values on which the provisioner performs no arithmetic, only comparisons, so
they are modelled as unbounded `Int`.  Byte slices are `List Nat` with the
invariant that every element is `< 256`.
-/

namespace WindowsUpdate

/-- Go `time.Duration`: a count of nanoseconds. -/
abbrev Duration := Int

/-- Go `time.Hour` in nanoseconds. -/
def timeHour : Duration := 3600000000000

/-- The configuration fields of `Config` that the provisioner reads
(`RestartTimeout`, `Username`, `Password`, `SearchCriteria`, `Filters`,
`UpdateLimit`).  A Go slice distinguishes `nil` from an empty non-nil slice,
so `filters` is an `Option (List String)` with `none` playing the role of the
`nil` slice. -/
structure Config where
  restartTimeout : Duration
  username : String
  password : String
  searchCriteria : String
  filters : Option (List String)
  updateLimit : Int

/-- The defaulting and validation performed by `Provisioner.Prepare` after
`config.Decode` has succeeded (lines 79-98): zero restart timeout becomes
4 hours, empty username becomes `"SYSTEM"`, the username emptiness check
appends to `errs`, zero update limit becomes 1000, and `errs` is returned.
`none` models the `nil` error. -/
def Prepare (c : Config) : Config × Option String :=
  let c1 := if c.restartTimeout = 0 then { c with restartTimeout := 4 * timeHour } else c
  let c2 := if c1.username = "" then { c1 with username := "SYSTEM" } else c1
  let errs : Option String := none
  let errs := if c2.username = "" then some "Must supply an 'username'" else errs
  let c3 := if c2.updateLimit = 0 then { c2 with updateLimit := 1000 } else c2
  (c3, errs)

/-- The constant `windowsUpdatePath`. -/
def windowsUpdatePath : String := "C:/Windows/Temp/packer-windows-update.ps1"

/-- Character-level model of `strings.Replace(value, "'", "''", -1)`: every
occurrence of the one-character pattern `'` is replaced by `''`. -/
def replaceQuotes : List Char → List Char
  | [] => []
  | c :: rest => (if c = '\'' then ['\'', '\''] else [c]) ++ replaceQuotes rest

/-- The function `escapePowerShellString` (lines 313-318): wrap in single
quotes, doubling every embedded single quote. -/
def escapePowerShellString (value : String) : String :=
  "'" ++ String.mk (replaceQuotes value.data) ++ "'"

/-- The function `searchCriteriaArgument` (lines 281-292). -/
def searchCriteriaArgument (searchCriteria : String) : String :=
  if searchCriteria = "" then ""
  else " -SearchCriteria " ++ escapePowerShellString searchCriteria

/-- The indexed loop inside `filtersArgument` (lines 303-308): a comma before
every element except the one at index 0, then the escaped element. -/
def filtersLoop : Nat → List String → String
  | _, [] => ""
  | i, f :: rest =>
    (if 0 < i then "," else "") ++ escapePowerShellString f ++ filtersLoop (i + 1) rest

/-- The function `filtersArgument` (lines 294-311).  The Go code returns the
empty string only when the slice is literally `nil` (`none` here); a non-nil
slice, empty or not, gets the `-Filters` flag written first. -/
def filtersArgument (filters : Option (List String)) : String :=
  match filters with
  | none => ""
  | some fs => " -Filters " ++ filtersLoop 0 fs

/-- The literal script invocation string built inside
`Provisioner.windowsUpdateCommand` (lines 254-259):
`"%s%s%s -UpdateLimit %d"`. -/
def windowsUpdateInvocation (c : Config) : String :=
  windowsUpdatePath ++ searchCriteriaArgument c.searchCriteria
    ++ filtersArgument c.filters ++ " -UpdateLimit " ++ toString c.updateLimit

/-- One code point encoded as UTF-16 units, as `utf16.Encode` does for valid
runes: one unit below `0x10000`, otherwise a surrogate pair.  (`utf16.Encode`
also maps invalid runes to `0xfffd`, a case that cannot arise here because a
Lean `Char` is always a valid Unicode scalar value.) -/
def utf16EncodeChar (c : Char) : List Nat :=
  if c.toNat < 0x10000 then [c.toNat]
  else [0xd800 + (c.toNat - 0x10000) / 0x400, 0xdc00 + (c.toNat - 0x10000) % 0x400]

/-- Little-endian byte pair of one UTF-16 unit: `b[i*2] = byte(r)`,
`b[i*2+1] = byte(r >> 8)` (lines 274-277). -/
def unitLEBytes (u : Nat) : List Nat := [u % 256, u / 256 % 256]

/-- The unit sequence `utf16.Encode([]rune(s))`. -/
def utf16Units (s : String) : List Nat := s.data.flatMap utf16EncodeChar

/-- The function `encodeUtf16Le` (lines 271-279). -/
def encodeUtf16Le (s : String) : List Nat :=
  (utf16Units s).flatMap unitLEBytes

/-- The standard base64 alphabet used by `base64.StdEncoding`. -/
def base64Chars : List Char :=
  "ABCDEFGHIJKLMNOPQRSTUVWXYZabcdefghijklmnopqrstuvwxyz0123456789+/".data

/-- The base64 character for a 6-bit group. -/
def b64enc (n : Nat) : Char := base64Chars.getD n 'A'

/-- The 6-bit group of a base64 character, if any. -/
def b64dec (c : Char) : Option Nat := base64Chars.findIdx? (· == c)

/-- Model of `base64.StdEncoding.EncodeToString` on a byte list: three bytes
per four characters, with `=` padding for a final group of one or two bytes. -/
def base64EncodeList : List Nat → List Char
  | [] => []
  | [a] => [b64enc (a / 4), b64enc (a % 4 * 16), '=', '=']
  | [a, b] => [b64enc (a / 4), b64enc (a % 4 * 16 + b / 16), b64enc (b % 16 * 4), '=']
  | a :: b :: c :: rest =>
    b64enc (a / 4) :: b64enc (a % 4 * 16 + b / 16) :: b64enc (b % 16 * 4 + c / 64) ::
      b64enc (c % 64) :: base64EncodeList rest

/-- `base64.StdEncoding.EncodeToString` as a `String`. -/
def base64Encode (bs : List Nat) : String := String.mk (base64EncodeList bs)

/-- The shared interpreter invocation of both encoder variants:
`"PowerShell -ExecutionPolicy Bypass -OutputFormat Text -EncodedCommand %s"`. -/
def encodedCommandHead : String :=
  "PowerShell -ExecutionPolicy Bypass -OutputFormat Text -EncodedCommand "

/-- The function `Provisioner.windowsUpdateCommand` (lines 250-260). -/
def windowsUpdateCommand (c : Config) : String :=
  encodedCommandHead ++ base64Encode (encodeUtf16Le (windowsUpdateInvocation c))

/-- The literal invocation built inside
`Provisioner.windowsUpdateCheckForRebootRequiredCommand`:
`"%s -OnlyCheckForRebootRequired"`. -/
def checkForRebootRequiredInvocation : String :=
  windowsUpdatePath ++ " -OnlyCheckForRebootRequired"

/-- The function `Provisioner.windowsUpdateCheckForRebootRequiredCommand`
(lines 262-269). -/
def windowsUpdateCheckForRebootRequiredCommand : String :=
  encodedCommandHead ++ base64Encode (encodeUtf16Le checkForRebootRequiredInvocation)

example : escapePowerShellString "O'Brien" = "'O''Brien'" := by decide
example : base64EncodeList [77, 97, 110] = "TWFu".data := by decide
example : base64EncodeList [77] = "TQ==".data := by decide
example : base64EncodeList [77, 97] = "TWE=".data := by decide
example : encodeUtf16Le "ab" = [97, 0, 98, 0] := by decide
example : filtersArgument (some []) = " -Filters " := by decide

/-! ### Decoders

Reference decoders for the round-trip claims: standard base64 decoding and
UTF-16LE decoding.  They are inverses of the encoding pipeline above. -/

/-- Standard base64 decoding on characters, in groups of four, accepting `=`
padding only at the end. -/
def base64Decode : List Char → Option (List Nat)
  | [] => some []
  | c1 :: c2 :: c3 :: c4 :: rest =>
    match b64dec c1, b64dec c2 with
    | some i1, some i2 =>
      if c3 = '=' then
        if c4 = '=' ∧ rest = [] then some [i1 * 4 + i2 / 16] else none
      else
        match b64dec c3 with
        | some i3 =>
          if c4 = '=' then
            if rest = [] then some [i1 * 4 + i2 / 16, i2 % 16 * 16 + i3 / 4] else none
          else
            match b64dec c4, base64Decode rest with
            | some i4, some bs =>
              some ((i1 * 4 + i2 / 16) :: (i2 % 16 * 16 + i3 / 4) :: (i3 % 4 * 64 + i4) :: bs)
            | _, _ => none
        | none => none
    | _, _ => none
  | _ => none

/-- Pair up little-endian bytes into UTF-16 units. -/
def bytesToUnits : List Nat → Option (List Nat)
  | [] => some []
  | [_] => none
  | lo :: hi :: rest => (bytesToUnits rest).map ((lo + 256 * hi) :: ·)

/-- Decode a UTF-16 unit sequence into characters, combining surrogate
pairs and rejecting unpaired surrogates. -/
def unitsToChars : List Nat → Option (List Char)
  | [] => some []
  | u :: rest =>
    if u < 0xd800 ∨ (0xdfff < u ∧ u < 0x10000) then
      (unitsToChars rest).map (Char.ofNat u :: ·)
    else if 0xd800 ≤ u ∧ u < 0xdc00 then
      match rest with
      | [] => none
      | u2 :: rest2 =>
        if 0xdc00 ≤ u2 ∧ u2 < 0xe000 then
          (unitsToChars rest2).map
            (Char.ofNat (0x10000 + (u - 0xd800) * 0x400 + (u2 - 0xdc00)) :: ·)
        else none
    else none

/-- UTF-16LE decoding: pair the bytes, then decode the units. -/
def utf16LeDecode (bs : List Nat) : Option String :=
  (bytesToUnits bs).bind fun us => (unitsToChars us).map String.mk

example : (base64Decode (base64EncodeList [77, 97, 110, 5, 200])) = some [77, 97, 110, 5, 200] := by decide
example : utf16LeDecode (encodeUtf16Le "h€y") = some "h€y" := by decide

/-! ### Orchestration -/

/-- Outcome of `RemoteCmd.RunWithUi`: either a transport-layer error from the
communicator, or completion with an exit status (`cmd.ExitStatus()`, a Go
`int`). -/
inductive CmdResult where
  | err (e : String)
  | exit (status : Int)
deriving DecidableEq

/-- The errors the provisioner can produce, each corresponding to one
`fmt.Errorf`/propagation site in `provisioner.go`, plus the retry library's
exhaustion result. -/
inductive ProvisionError where
  | transport (e : String)
  | scriptFailed (status : Int)
  | restartFailed (status : Int)
  | notAvailable (status : Int)
  | retryBudgetExhausted
deriving DecidableEq

/-- The remote commands the restart sequencer issues, identified by the
constant command strings `restartCommand`, `testRestartCommand`,
`abortTestRestartCommand` and `pendingRebootElevatedCommand`. -/
inductive RemoteCommand where
  | restartCmd
  | testRestartCmd
  | abortTestRestartCmd
  | pendingRebootCmd
deriving DecidableEq

/-- The function `Provisioner.update` (lines 170-186) applied to the outcome
of running `elevatedCommand`: a transport error propagates, exit status 0
means no restart pending, 101 means restart pending, anything else is the
fatal `"Windows update script exited with non-zero exit status: %d"`. -/
def update (r : CmdResult) : Except ProvisionError Bool :=
  match r with
  | .err e => .error (.transport e)
  | .exit s =>
    if s = 0 then .ok false
    else if s = 101 then .ok true
    else .error (.scriptFailed s)

/-- The closure passed to the first `retryable` call in `Provisioner.restart`
(lines 190-201): run `restartCommand`; a transport error or nonzero exit
status is an attempt failure. -/
def restartAttempt (run : RemoteCommand → CmdResult) : Option ProvisionError :=
  match run .restartCmd with
  | .err e => some (.transport e)
  | .exit s => if s ≠ 0 then some (.restartFailed s) else none

/-- The closure passed to the second `retryable` call in `Provisioner.restart`
(lines 207-236): run `testRestartCommand` (nonzero exit fails the attempt),
then `abortTestRestartCommand` (only a transport error is checked), then
`pendingRebootElevatedCommand` (nonzero exit fails the attempt). -/
def waitAttempt (run : RemoteCommand → CmdResult) : Option ProvisionError :=
  match run .testRestartCmd with
  | .err e => some (.transport e)
  | .exit s =>
    if s ≠ 0 then some (.notAvailable s)
    else
      match run .abortTestRestartCmd with
      | .err e => some (.transport e)
      | .exit _ =>
        match run .pendingRebootCmd with
        | .err e => some (.transport e)
        | .exit s2 => if s2 ≠ 0 then some (.notAvailable s2) else none

/-- Modelled from the spec: `retry.Config.Run` from the packer library (not
under `src/`), the Retry Executor of section 4.2: repeatedly invoke the
action with a fixed delay; on success return immediately; on error retry
until the time budget is exhausted, then surface the last error (or the
dedicated exhaustion indicator if no attempt completed).  Timing is
abstracted into `maxAttempts`, the number of attempts the budget admits;
`attempts a` gives the remote command outcomes seen by attempt `a`. -/
def retryRun (maxAttempts : Nat) (attempts : Nat → RemoteCommand → CmdResult)
    (action : (RemoteCommand → CmdResult) → Option ProvisionError) : Option ProvisionError :=
  match maxAttempts with
  | 0 => some .retryBudgetExhausted
  | n + 1 =>
    match action (attempts 0) with
    | none => none
    | some e => if n = 0 then some e else retryRun n (fun a => attempts (a + 1)) action

/-- The method `Provisioner.retryable` (lines 243-248): one Retry Executor
invocation whose `StartTimeout` is the session's `RestartTimeout`.  The first
component records the budget handed to the executor. -/
def retryable (cfg : Config) (maxAttempts : Nat) (attempts : Nat → RemoteCommand → CmdResult)
    (action : (RemoteCommand → CmdResult) → Option ProvisionError) :
    Duration × Option ProvisionError :=
  (cfg.restartTimeout, retryRun maxAttempts attempts action)

/-- Environment for one execution of `Provisioner.restart`: for `retryable`
invocation `j` (0 = restart command, 1 = wait), `attempts j a` gives the
remote outcomes at attempt `a` and `maxAttempts j` the number of attempts the
budget admits. -/
structure RestartEnv where
  attempts : Nat → Nat → RemoteCommand → CmdResult
  maxAttempts : Nat → Nat

/-- The method `Provisioner.restart` (lines 188-238): the first `retryable`
invocation wraps the forced restart; if it fails its error is returned; the
second wraps the availability probe, the probe abort and the pending-reboot
check together.  The first component lists the budget of each Retry Executor
invocation actually made, in order. -/
def restart (cfg : Config) (env : RestartEnv) : List Duration × Option ProvisionError :=
  let r1 := retryable cfg (env.maxAttempts 0) (env.attempts 0) restartAttempt
  match r1.2 with
  | some e => ([r1.1], some e)
  | none =>
    let r2 := retryable cfg (env.maxAttempts 1) (env.attempts 1) waitAttempt
    ([r1.1, r2.1], r2.2)

/-- Observable events of one `Provision` run: the three script uploads, one
update-script run, one completed restart sequence. -/
inductive Ev where
  | upload (idx : Nat)
  | upd
  | rst
deriving DecidableEq, BEq

/-- Result of `Provision`: success (`nil`), a fatal error, or out of fuel
(the loop would keep iterating). -/
inductive ProvResult where
  | done
  | fatal (e : ProvisionError)
  | fuelOut
deriving DecidableEq

/-- Environment for one `Provision` call: outcome of each upload (`some` is a
transport error), of the `i`-th update-script run, and of the `i`-th restart
sequence. -/
structure ProvisionEnv where
  uploadResult : Nat → Option String
  updateRun : Nat → CmdResult
  restartEnv : Nat → RestartEnv

/-- The `for` loop of `Provisioner.Provision` (lines 153-167), with fuel to
make the possibly endless loop a total function: run `update`; a fatal error
stops everything; `false` terminates successfully; `true` runs `restart`,
whose error also stops everything, and loops. -/
def provisionLoop (cfg : Config) (env : ProvisionEnv) : Nat → Nat → List Ev × ProvResult
  | _, 0 => ([], .fuelOut)
  | i, fuel + 1 =>
    match update (env.updateRun i) with
    | .error e => ([.upd], .fatal e)
    | .ok false => ([.upd], .done)
    | .ok true =>
      match (restart cfg (env.restartEnv i)).2 with
      | some e => ([.upd], .fatal e)
      | none =>
        let r := provisionLoop cfg env (i + 1) fuel
        (.upd :: .rst :: r.1, r.2)

/-- The method `Provisioner.Provision` (lines 101-168): three uploads (the
elevated update wrapper, the elevated pending-reboot wrapper, the update
script), each of whose transport errors is returned immediately, then the
update/restart loop. -/
def Provision (cfg : Config) (env : ProvisionEnv) (fuel : Nat) : List Ev × ProvResult :=
  match env.uploadResult 0 with
  | some e => ([.upload 0], .fatal (.transport e))
  | none =>
    match env.uploadResult 1 with
    | some e => ([.upload 0, .upload 1], .fatal (.transport e))
    | none =>
      match env.uploadResult 2 with
      | some e => ([.upload 0, .upload 1, .upload 2], .fatal (.transport e))
      | none =>
        let r := provisionLoop cfg env 0 fuel
        ([.upload 0, .upload 1, .upload 2] ++ r.1, r.2)

/-- The shape of a terminating run that restarts `k` times:
update, restart, update, restart, ..., update. -/
def updateRestartTrace : Nat → List Ev
  | 0 => [.upd]
  | k + 1 => .upd :: .rst :: updateRestartTrace k

/-- Concrete configuration for witnesses: the post-`Prepare` defaults. -/
def cfg0 : Config :=
  { restartTimeout := 4 * timeHour, username := "SYSTEM", password := ""
    searchCriteria := "", filters := none, updateLimit := 1000 }

/-- Restart environment in which every remote command succeeds at once. -/
def okRestartEnv : RestartEnv :=
  { attempts := fun _ _ _ => .exit 0, maxAttempts := fun _ => 1 }

/-- Environment whose update script always exits with status 5. -/
def env5 : ProvisionEnv :=
  { uploadResult := fun _ => none, updateRun := fun _ => .exit 5,
    restartEnv := fun _ => okRestartEnv }

/-- Environment whose update script exits 101 twice, then 0, with restarts
that always succeed. -/
def env101 : ProvisionEnv :=
  { uploadResult := fun _ => none
    updateRun := fun i => if i < 2 then .exit 101 else .exit 0
    restartEnv := fun _ => okRestartEnv }

/-- Restart environment whose forced restart and availability probe succeed
but whose pending-reboot drain reports exit status 7 on its only allowed
attempt. -/
def failWaitEnv : RestartEnv :=
  { attempts := fun j _ cmd =>
      if j = 0 then .exit 0
      else
        match cmd with
        | .pendingRebootCmd => .exit 7
        | _ => .exit 0
    maxAttempts := fun _ => 1 }

/-- Environment whose update script demands a restart and whose restart
sequence fails in its second retry invocation. -/
def penvWait : ProvisionEnv :=
  { uploadResult := fun _ => none, updateRun := fun _ => .exit 101,
    restartEnv := fun _ => failWaitEnv }

/-- Environment whose very first upload fails at the transport layer. -/
def envUpFail : ProvisionEnv :=
  { uploadResult := fun j => if j = 0 then some "connection reset" else none,
    updateRun := fun _ => .exit 0, restartEnv := fun _ => okRestartEnv }

/-! ### Statement-side helpers: comma joining, substring occurrence -/

/-- Values joined with a bare comma between consecutive elements, following
the spec's wording of the filter join. -/
def commaJoined : List String → String
  | [] => ""
  | [v] => v
  | v :: rest => v ++ "," ++ commaJoined rest

/-- Tail of the join: a comma before every remaining escaped value. -/
def commaTail : List String → String
  | [] => ""
  | f :: rest => "," ++ escapePowerShellString f ++ commaTail rest

/-- Whether the first list occurs at the very front of the second. -/
def segAt : List Char → List Char → Bool
  | [], _ => true
  | _ :: _, [] => false
  | a :: as, b :: bs => a == b && segAt as bs

/-- Whether the first list occurs contiguously anywhere inside the second. -/
def listHasSeg (needle : List Char) : List Char → Bool
  | [] => needle.isEmpty
  | c :: rest => segAt needle (c :: rest) || listHasSeg needle rest

example : (restart cfg0 okRestartEnv).2 = none := by decide
example : (restart cfg0 okRestartEnv).1 = [cfg0.restartTimeout, cfg0.restartTimeout] := by
  decide
example : provisionLoop cfg0
    { uploadResult := fun _ => none, updateRun := fun i => if i < 1 then .exit 101 else .exit 0,
      restartEnv := fun _ => okRestartEnv } 0 2 = (updateRestartTrace 1, .done) := by decide

/-! ### Round-trip lemmas for the payload encoding -/

theorem char_toNat_valid (c : Char) :
    c.toNat < 0xd800 ∨ (0xdfff < c.toNat ∧ c.toNat < 0x110000) := by
  rcases c.valid with h | ⟨h1, h2⟩
  · exact Or.inl (UInt32.toNat_lt_of_lt (by decide) h)
  · exact Or.inr ⟨UInt32.lt_toNat_of_lt (by decide) h1, UInt32.toNat_lt_of_lt (by decide) h2⟩

theorem utf16EncodeChar_lt (c : Char) : ∀ u ∈ utf16EncodeChar c, u < 65536 := by
  have hb : c.toNat < 0x110000 := by
    rcases char_toNat_valid c with h | ⟨_, h2⟩ <;> omega
  intro u hu
  by_cases hc : c.toNat < 0x10000
  · simp only [utf16EncodeChar, if_pos hc, List.mem_singleton] at hu
    omega
  · simp only [utf16EncodeChar, if_neg hc, List.mem_cons, List.not_mem_nil, or_false] at hu
    rcases hu with h | h <;> omega

theorem utf16Units_lt (s : String) : ∀ u ∈ utf16Units s, u < 65536 := by
  intro u hu
  simp only [utf16Units, List.mem_flatMap] at hu
  obtain ⟨c, _, hc⟩ := hu
  exact utf16EncodeChar_lt c u hc

theorem encodeUtf16Le_lt (s : String) : ∀ b ∈ encodeUtf16Le s, b < 256 := by
  intro b hb
  simp only [encodeUtf16Le, List.mem_flatMap, unitLEBytes, List.mem_cons,
    List.not_mem_nil, or_false] at hb
  obtain ⟨u, _, hb⟩ := hb
  rcases hb with rfl | rfl <;> omega

theorem bytesToUnits_flatMap :
    ∀ us : List Nat, (∀ u ∈ us, u < 65536) →
      bytesToUnits (us.flatMap unitLEBytes) = some us
  | [], _ => rfl
  | u :: rest, h => by
    have hu : u < 65536 := h u (by simp)
    have ih := bytesToUnits_flatMap rest (fun x hx => h x (by simp [hx]))
    show bytesToUnits (u % 256 :: u / 256 % 256 :: rest.flatMap unitLEBytes) = some (u :: rest)
    rw [bytesToUnits.eq_def]
    dsimp only
    rw [ih]
    show some ((u % 256 + 256 * (u / 256 % 256)) :: rest) = some (u :: rest)
    have key : u % 256 + 256 * (u / 256 % 256) = u := by omega
    rw [key]

theorem unitsToChars_flatMap :
    ∀ cs : List Char, unitsToChars (cs.flatMap utf16EncodeChar) = some cs
  | [] => rfl
  | c :: cs => by
    have ih := unitsToChars_flatMap cs
    have hv := char_toNat_valid c
    by_cases hc : c.toNat < 65536
    · have hcond : c.toNat < 0xd800 ∨ (0xdfff < c.toNat ∧ c.toNat < 65536) := by
        rcases hv with h | ⟨h1, _⟩
        · exact Or.inl h
        · exact Or.inr ⟨h1, hc⟩
      have henc : utf16EncodeChar c = [c.toNat] := by
        simp only [utf16EncodeChar, if_pos hc]
      rw [List.flatMap_cons, henc]
      show unitsToChars (c.toNat :: cs.flatMap utf16EncodeChar) = some (c :: cs)
      rw [unitsToChars.eq_def]
      dsimp only
      rw [if_pos hcond, ih]
      show some (Char.ofNat c.toNat :: cs) = some (c :: cs)
      rw [Char.ofNat_toNat]
    · have hlt : c.toNat < 0x110000 := by
        rcases hv with h | ⟨_, h2⟩ <;> omega
      have henc : utf16EncodeChar c =
          [0xd800 + (c.toNat - 65536) / 1024, 0xdc00 + (c.toNat - 65536) % 1024] := by
        simp only [utf16EncodeChar, if_neg hc]
      have hcond1 : ¬ (0xd800 + (c.toNat - 65536) / 1024 < 0xd800 ∨
          (0xdfff < 0xd800 + (c.toNat - 65536) / 1024 ∧
            0xd800 + (c.toNat - 65536) / 1024 < 65536)) := by omega
      have hcond2 : 0xd800 ≤ 0xd800 + (c.toNat - 65536) / 1024 ∧
          0xd800 + (c.toNat - 65536) / 1024 < 0xdc00 := by omega
      have hcond3 : 0xdc00 ≤ 0xdc00 + (c.toNat - 65536) % 1024 ∧
          0xdc00 + (c.toNat - 65536) % 1024 < 0xe000 := by omega
      have hval : 65536 + (0xd800 + (c.toNat - 65536) / 1024 - 0xd800) * 1024 +
          (0xdc00 + (c.toNat - 65536) % 1024 - 0xdc00) = c.toNat := by omega
      rw [List.flatMap_cons, henc]
      show unitsToChars ((0xd800 + (c.toNat - 65536) / 1024) ::
        (0xdc00 + (c.toNat - 65536) % 1024) :: cs.flatMap utf16EncodeChar) = some (c :: cs)
      rw [unitsToChars.eq_def]
      dsimp only
      rw [if_neg hcond1, if_pos hcond2, if_pos hcond3, ih]
      show some (Char.ofNat (65536 + (0xd800 + (c.toNat - 65536) / 1024 - 0xd800) * 1024 +
        (0xdc00 + (c.toNat - 65536) % 1024 - 0xdc00)) :: cs) = some (c :: cs)
      rw [hval, Char.ofNat_toNat]

theorem utf16LeDecode_encodeUtf16Le (s : String) :
    utf16LeDecode (encodeUtf16Le s) = some s := by
  have h1 : bytesToUnits (encodeUtf16Le s) = some (utf16Units s) :=
    bytesToUnits_flatMap (utf16Units s) (utf16Units_lt s)
  have h2 : unitsToChars (utf16Units s) = some s.data :=
    unitsToChars_flatMap s.data
  obtain ⟨data⟩ := s
  simp only [utf16LeDecode]
  rw [h1]
  show (unitsToChars (utf16Units ⟨data⟩)).map String.mk = some ⟨data⟩
  rw [h2]
  rfl

theorem b64dec_b64enc : ∀ n, n < 64 → b64dec (b64enc n) = some n := by
  intro n h
  interval_cases n <;> rfl

theorem b64enc_ne_pad : ∀ n, n < 64 → ¬ b64enc n = '=' := by
  intro n h
  interval_cases n <;> decide

theorem base64EncodeList_roundtrip :
    ∀ bs : List Nat, (∀ b ∈ bs, b < 256) → base64Decode (base64EncodeList bs) = some bs
  | [], _ => rfl
  | [a], h => by
    have ha : a < 256 := h a (by simp)
    show base64Decode [b64enc (a / 4), b64enc (a % 4 * 16), '=', '='] = some [a]
    rw [base64Decode.eq_def]
    dsimp only
    rw [b64dec_b64enc _ (show a / 4 < 64 by omega),
      b64dec_b64enc _ (show a % 4 * 16 < 64 by omega)]
    dsimp only
    rw [if_pos rfl, if_pos ⟨rfl, rfl⟩]
    have key : a / 4 * 4 + a % 4 * 16 / 16 = a := by omega
    rw [key]
  | [a, b], h => by
    have ha : a < 256 := h a (by simp)
    have hb : b < 256 := h b (by simp)
    show base64Decode [b64enc (a / 4), b64enc (a % 4 * 16 + b / 16),
      b64enc (b % 16 * 4), '='] = some [a, b]
    rw [base64Decode.eq_def]
    dsimp only
    rw [b64dec_b64enc _ (show a / 4 < 64 by omega),
      b64dec_b64enc _ (show a % 4 * 16 + b / 16 < 64 by omega)]
    dsimp only
    rw [if_neg (b64enc_ne_pad _ (show b % 16 * 4 < 64 by omega)),
      b64dec_b64enc _ (show b % 16 * 4 < 64 by omega)]
    dsimp only
    rw [if_pos rfl, if_pos rfl]
    have k1 : a / 4 * 4 + (a % 4 * 16 + b / 16) / 16 = a := by omega
    have k2 : (a % 4 * 16 + b / 16) % 16 * 16 + b % 16 * 4 / 4 = b := by omega
    rw [k1, k2]
  | a :: b :: c :: rest, h => by
    have ha : a < 256 := h a (by simp)
    have hb : b < 256 := h b (by simp)
    have hc : c < 256 := h c (by simp)
    have ih := base64EncodeList_roundtrip rest (fun x hx => h x (by simp [hx]))
    show base64Decode (b64enc (a / 4) :: b64enc (a % 4 * 16 + b / 16) ::
      b64enc (b % 16 * 4 + c / 64) :: b64enc (c % 64) :: base64EncodeList rest) =
      some (a :: b :: c :: rest)
    rw [base64Decode.eq_def]
    dsimp only
    rw [b64dec_b64enc _ (show a / 4 < 64 by omega),
      b64dec_b64enc _ (show a % 4 * 16 + b / 16 < 64 by omega)]
    dsimp only
    rw [if_neg (b64enc_ne_pad _ (show b % 16 * 4 + c / 64 < 64 by omega)),
      b64dec_b64enc _ (show b % 16 * 4 + c / 64 < 64 by omega)]
    dsimp only
    rw [if_neg (b64enc_ne_pad _ (show c % 64 < 64 by omega)),
      b64dec_b64enc _ (show c % 64 < 64 by omega), ih]
    dsimp only
    have k1 : a / 4 * 4 + (a % 4 * 16 + b / 16) / 16 = a := by omega
    have k2 : (a % 4 * 16 + b / 16) % 16 * 16 + (b % 16 * 4 + c / 64) / 4 = b := by omega
    have k3 : (b % 16 * 4 + c / 64) % 4 * 64 + c % 64 = c := by omega
    rw [k1, k2, k3]

/-! ### Lemmas about the argument encoder -/

theorem filtersLoop_pos :
    ∀ (fs : List String) (i : Nat), 0 < i → filtersLoop i fs = commaTail fs
  | [], _, _ => rfl
  | f :: rest, i, hi => by
    simp only [filtersLoop, if_pos hi, commaTail,
      filtersLoop_pos rest (i + 1) (Nat.succ_pos i)]

theorem commaTail_spec : ∀ (rest : List String) (v : String),
    v ++ commaTail rest = commaJoined (v :: rest.map escapePowerShellString)
  | [], v => String.append_empty v
  | g :: rest, v => by
    have ih := commaTail_spec rest (escapePowerShellString g)
    show v ++ ("," ++ (escapePowerShellString g ++ commaTail rest)) =
      commaJoined (v :: escapePowerShellString g :: rest.map escapePowerShellString)
    rw [commaJoined.eq_def]
    dsimp only
    rw [← ih, String.append_assoc]

theorem filtersLoop_zero :
    ∀ fs : List String, filtersLoop 0 fs = commaJoined (fs.map escapePowerShellString)
  | [] => rfl
  | f :: rest => by
    show escapePowerShellString f ++ filtersLoop 1 rest =
      commaJoined ((f :: rest).map escapePowerShellString)
    rw [filtersLoop_pos rest 1 Nat.one_pos, List.map_cons]
    exact commaTail_spec rest (escapePowerShellString f)

theorem replaceQuotes_eq_flatMap :
    ∀ l : List Char, replaceQuotes l = l.flatMap fun ch => if ch = '\'' then [ch, ch] else [ch]
  | [] => rfl
  | c :: rest => by
    simp only [replaceQuotes, List.flatMap_cons, replaceQuotes_eq_flatMap rest]
    by_cases h : c = '\'' <;> simp [h]

theorem segAt_append_self : ∀ n r : List Char, segAt n (n ++ r) = true
  | [], _ => rfl
  | a :: as, r => by
    show (a == a && segAt as (as ++ r)) = true
    rw [segAt_append_self as r, beq_self_eq_true, Bool.and_self]

theorem listHasSeg_of_segAt {n : List Char} :
    ∀ l : List Char, segAt n l = true → listHasSeg n l = true := by
  intro l h
  cases l with
  | nil =>
    cases n with
    | nil => rfl
    | cons a as => simp [segAt] at h
  | cons c rest =>
    simp only [listHasSeg, h, Bool.true_or]

theorem listHasSeg_append_left (n : List Char) :
    ∀ l m : List Char, listHasSeg n m = true → listHasSeg n (l ++ m) = true
  | [], _, h => h
  | a :: as, m, h => by
    show (segAt n (a :: (as ++ m)) || listHasSeg n (as ++ m)) = true
    rw [listHasSeg_append_left n as m h, Bool.or_true]

theorem listHasSeg_self_append (n r : List Char) : listHasSeg n (n ++ r) = true :=
  listHasSeg_of_segAt (n ++ r) (segAt_append_self n r)

theorem count_updateRestartTrace_upd : ∀ k, (updateRestartTrace k).count .upd = k + 1
  | 0 => rfl
  | k + 1 => by
    simp [updateRestartTrace, List.count_cons, count_updateRestartTrace_upd k,
      show (Ev.rst == Ev.upd) = false from rfl, show (Ev.upd == Ev.upd) = true from rfl]

theorem count_updateRestartTrace_rst : ∀ k, (updateRestartTrace k).count .rst = k
  | 0 => rfl
  | k + 1 => by
    simp [updateRestartTrace, List.count_cons, count_updateRestartTrace_rst k,
      show (Ev.rst == Ev.rst) = true from rfl, show (Ev.upd == Ev.rst) = false from rfl]

theorem update_exit_zero : update (.exit 0) = .ok false := rfl

theorem update_exit_101 : update (.exit 101) = .ok true := rfl

theorem provisionLoop_alternating (cfg : Config) (env : ProvisionEnv) :
    ∀ (k i : Nat), (∀ j, j < k → env.updateRun (i + j) = .exit 101) →
      env.updateRun (i + k) = .exit 0 →
      (∀ j, j < k → (restart cfg (env.restartEnv (i + j))).2 = none) →
      provisionLoop cfg env i (k + 1) = (updateRestartTrace k, .done)
  | 0, i, _, h0, _ => by
    have h0' : env.updateRun i = .exit 0 := by simpa using h0
    simp only [provisionLoop, h0', update_exit_zero, updateRestartTrace]
  | k + 1, i, hu, h0, hr => by
    have h101 : env.updateRun i = .exit 101 := by simpa using hu 0 (Nat.succ_pos k)
    have hres : (restart cfg (env.restartEnv i)).2 = none := by
      simpa using hr 0 (Nat.succ_pos k)
    have ih := provisionLoop_alternating cfg env k (i + 1)
      (fun j hj => by
        have h := hu (j + 1) (by omega)
        rw [show i + 1 + j = i + (j + 1) by omega]
        exact h)
      (by
        rw [show i + 1 + k = i + (k + 1) by omega]
        exact h0)
      (fun j hj => by
        have h := hr (j + 1) (by omega)
        rw [show i + 1 + j = i + (j + 1) by omega]
        exact h)
    rw [provisionLoop.eq_def]
    dsimp only
    rw [h101, update_exit_101]
    dsimp only
    rw [hres]
    dsimp only
    rw [ih]
    rfl

/-! ### Claim theorems -/

/-- C1: for every run of the update step, the orchestrator interprets the
update script's exit status three ways: 0 terminates the loop successfully,
101 proceeds to the restart sequence and then re-runs the update script, and
any other status immediately aborts the orchestration with a fatal error
carrying that literal status, with no restart attempted afterward. -/
theorem exit_status_protocol (cfg : Config) (env : ProvisionEnv) (i fuel : Nat) :
    (env.updateRun i = .exit 0 → provisionLoop cfg env i (fuel + 1) = ([.upd], .done)) ∧
    (env.updateRun i = .exit 101 → (restart cfg (env.restartEnv i)).2 = none →
      provisionLoop cfg env i (fuel + 1) =
        (.upd :: .rst :: (provisionLoop cfg env (i + 1) fuel).1,
          (provisionLoop cfg env (i + 1) fuel).2)) ∧
    (∀ s : Int, env.updateRun i = .exit s → ¬ s = 0 → ¬ s = 101 →
      provisionLoop cfg env i (fuel + 1) = ([.upd], .fatal (.scriptFailed s))) := by
  refine ⟨?_, ?_, ?_⟩
  · intro h
    rw [provisionLoop.eq_def]
    dsimp only
    rw [h, update_exit_zero]
  · intro h hres
    rw [provisionLoop.eq_def]
    dsimp only
    rw [h, update_exit_101]
    dsimp only
    rw [hres]
  · intro s h hs0 hs101
    have hupd : update (.exit s) = .error (.scriptFailed s) := by
      simp only [update, if_neg hs0, if_neg hs101]
    rw [provisionLoop.eq_def]
    dsimp only
    rw [h, hupd]

/-- Witness for C1: a script exit status of 5 aborts the loop at once with
the literal status 5 and no restart event. -/
theorem exit_status_protocol_witness :
    provisionLoop cfg0 env5 0 1 = ([.upd], .fatal (.scriptFailed 5)) :=
  (exit_status_protocol cfg0 env5 0 0).2.2 5 rfl (by decide) (by decide)

/-- C2: if the update script exits 101 on exactly its first k runs and 0 on
run k+1, and every restart sequence completes without error, the
orchestration performs exactly k+1 update runs and exactly k restart
sequences, strictly alternating (update, restart, ..., update), then
returns success. -/
theorem provision_alternating_runs (cfg : Config) (env : ProvisionEnv) (k : Nat)
    (hu : ∀ j, j < k → env.updateRun j = .exit 101)
    (h0 : env.updateRun k = .exit 0)
    (hr : ∀ j, j < k → (restart cfg (env.restartEnv j)).2 = none)
    (hA : env.uploadResult 0 = none) (hB : env.uploadResult 1 = none)
    (hC : env.uploadResult 2 = none) :
    Provision cfg env (k + 1) =
      ([.upload 0, .upload 1, .upload 2] ++ updateRestartTrace k, .done) ∧
    (updateRestartTrace k).count .upd = k + 1 ∧
    (updateRestartTrace k).count .rst = k := by
  refine ⟨?_, count_updateRestartTrace_upd k, count_updateRestartTrace_rst k⟩
  have hloop := provisionLoop_alternating cfg env k 0
    (fun j hj => by simpa using hu j hj)
    (by simpa using h0)
    (fun j hj => by simpa using hr j hj)
  rw [Provision.eq_def]
  dsimp only
  rw [hA]
  dsimp only
  rw [hB]
  dsimp only
  rw [hC]
  dsimp only
  rw [hloop]

/-- Witness for C2 at k = 2: two 101 exits followed by a 0 exit yield
three update runs and two restarts in alternation. -/
theorem provision_alternating_runs_witness :
    Provision cfg0 env101 3 =
      ([.upload 0, .upload 1, .upload 2] ++ updateRestartTrace 2, .done) ∧
    (updateRestartTrace 2).count .upd = 3 ∧
    (updateRestartTrace 2).count .rst = 2 :=
  provision_alternating_runs cfg0 env101 2 (by decide) (by decide) (by decide)
    rfl rfl rfl

/-- C3 counterexample: on a run in which every remote command succeeds
immediately, the restart sequence hands the Retry Executor exactly two
budgets, not the three separate bounded-retry invocations the claim
asserts. -/
theorem restart_two_not_three_retries :
    (restart cfg0 okRestartEnv).1 = [cfg0.restartTimeout, cfg0.restartTimeout] ∧
    ¬ (restart cfg0 okRestartEnv).1.length = 3 := by
  exact ⟨rfl, by decide⟩

/-- C3 amended: the restart sequence performs its three sub-steps through
exactly two Retry Executor invocations, each with the full restart-timeout
budget: the first wraps the forced restart alone, the second wraps the
availability probe, the probe abort and the pending-reboot drain together
(so a drain failure fails that whole shared attempt), and an error surfaced
by either invocation is fatal for the whole orchestration. -/
theorem restart_retry_structure (cfg : Config) (env : RestartEnv) :
    (∀ b ∈ (restart cfg env).1, b = cfg.restartTimeout) ∧
    ((restart cfg env).1.length = 1 ∨ (restart cfg env).1.length = 2) ∧
    ((restart cfg env).1.length = 2 ↔
      retryRun (env.maxAttempts 0) (env.attempts 0) restartAttempt = none) ∧
    (∀ (run : RemoteCommand → CmdResult) (s a : Int),
      run .testRestartCmd = .exit 0 → run .abortTestRestartCmd = .exit a →
      run .pendingRebootCmd = .exit s → ¬ s = 0 →
      waitAttempt run = some (.notAvailable s)) ∧
    (∀ e, (restart cfg env).2 = some e →
      ∀ (penv : ProvisionEnv) (i fuel : Nat), penv.updateRun i = .exit 101 →
        penv.restartEnv i = env →
        provisionLoop cfg penv i (fuel + 1) = ([.upd], .fatal e)) := by
  have hwait : ∀ (run : RemoteCommand → CmdResult) (s a : Int),
      run .testRestartCmd = .exit 0 → run .abortTestRestartCmd = .exit a →
      run .pendingRebootCmd = .exit s → ¬ s = 0 →
      waitAttempt run = some (.notAvailable s) := by
    intro run s a ht hab hp hs
    rw [waitAttempt.eq_def, ht]
    dsimp only
    rw [if_neg (show ¬ (0 : Int) ≠ 0 from fun hh => hh rfl), hab]
    dsimp only
    rw [hp]
    dsimp only
    rw [if_pos hs]
  have hfatal : ∀ e, (restart cfg env).2 = some e →
      ∀ (penv : ProvisionEnv) (i fuel : Nat), penv.updateRun i = .exit 101 →
        penv.restartEnv i = env →
        provisionLoop cfg penv i (fuel + 1) = ([.upd], .fatal e) := by
    intro e he penv i fuel hupd hre
    have hres : (restart cfg (penv.restartEnv i)).2 = some e := by rw [hre]; exact he
    rw [provisionLoop.eq_def]
    dsimp only
    rw [hupd, update_exit_101]
    dsimp only
    rw [hres]
  rcases hopt : retryRun (env.maxAttempts 0) (env.attempts 0) restartAttempt with _ | e
  · have hr : restart cfg env =
        ([cfg.restartTimeout, cfg.restartTimeout],
          retryRun (env.maxAttempts 1) (env.attempts 1) waitAttempt) := by
      rw [restart.eq_def]
      dsimp only [retryable]
      rw [hopt]
    refine ⟨?_, Or.inr (by rw [hr]; rfl), ?_, hwait, hfatal⟩
    · intro b hb
      rw [hr] at hb
      simp only [List.mem_cons, List.not_mem_nil, or_false] at hb
      rcases hb with rfl | rfl <;> rfl
    · rw [hr]
      simp [hopt]
  · have hr : restart cfg env = ([cfg.restartTimeout], some e) := by
      rw [restart.eq_def]
      dsimp only [retryable]
      rw [hopt]
    refine ⟨?_, Or.inl (by rw [hr]; rfl), ?_, hwait, hfatal⟩
    · intro b hb
      rw [hr] at hb
      simp only [List.mem_cons, List.not_mem_nil, or_false] at hb
      rcases hb with rfl
      rfl
    · rw [hr]
      simp [hopt]

/-- Witness for the amended C3: a pending-reboot drain left failing makes
the shared second retry invocation fail and the whole orchestration abort. -/
theorem restart_retry_structure_witness :
    provisionLoop cfg0 penvWait 0 1 = ([.upd], .fatal (.notAvailable 7)) :=
  (restart_retry_structure cfg0 failWaitEnv).2.2.2.2 (.notAvailable 7) (by decide)
    penvWait 0 0 rfl rfl

/-- C4 counterexample: for a present-but-empty filter list the encoder does
not omit the flag; it emits a bare " -Filters " with no value. -/
theorem filters_flag_for_empty_list :
    ¬ filtersArgument (some []) = "" ∧ filtersArgument (some []) = " -Filters " := by
  exact ⟨by decide, rfl⟩

/-- C4 amended: the encoder omits the -SearchCriteria argument exactly when
the search-criteria string is empty and omits the -Filters argument when the
filter list is absent (a nil slice); a present-but-empty list instead
emits the bare flag " -Filters " with no value. -/
theorem omit_absent_arguments :
    searchCriteriaArgument "" = "" ∧
    filtersArgument none = "" ∧
    (∀ s : String, ¬ s = "" →
      searchCriteriaArgument s = " -SearchCriteria " ++ escapePowerShellString s) ∧
    filtersArgument (some []) = " -Filters " := by
  refine ⟨rfl, rfl, ?_, rfl⟩
  intro s hs
  simp only [searchCriteriaArgument, if_neg hs]

/-- Witness for the amended C4: a nonempty criteria string gets the flag and
the escaped value. -/
theorem omit_absent_arguments_witness :
    searchCriteriaArgument "IsInstalled=0" =
      " -SearchCriteria " ++ escapePowerShellString "IsInstalled=0" :=
  omit_absent_arguments.2.2.1 "IsInstalled=0" (by decide)

/-- C5: every free-form value is embedded by wrapping it in single quotes
with each embedded single quote doubled (O'Brien becomes 'O''Brien'), no
other transformation is applied, and multiple filter values are joined with
a bare comma. -/
theorem escape_and_join :
    escapePowerShellString "O'Brien" = "'O''Brien'" ∧
    (∀ v : String, (escapePowerShellString v).data =
      '\'' :: ((v.data.flatMap fun ch => if ch = '\'' then [ch, ch] else [ch]) ++ ['\''])) ∧
    (∀ fs : List String, filtersArgument (some fs) =
      " -Filters " ++ commaJoined (fs.map escapePowerShellString)) := by
  refine ⟨by decide, ?_, ?_⟩
  · intro v
    rw [show (escapePowerShellString v).data =
      '\'' :: (replaceQuotes v.data ++ ['\'']) from rfl, replaceQuotes_eq_flatMap]
  · intro fs
    show " -Filters " ++ filtersLoop 0 fs = _
    rw [filtersLoop_zero]

/-- C6: for every configuration, base64-decoding the encoded payload and
then decoding the result as UTF-16LE recovers exactly the literal script
invocation string. -/
theorem payload_roundtrip (c : Config) :
    windowsUpdateCommand c =
      encodedCommandHead ++ base64Encode (encodeUtf16Le (windowsUpdateInvocation c)) ∧
    (base64Decode (base64EncodeList (encodeUtf16Le (windowsUpdateInvocation c)))).bind
      utf16LeDecode = some (windowsUpdateInvocation c) := by
  refine ⟨rfl, ?_⟩
  rw [base64EncodeList_roundtrip _ (encodeUtf16Le_lt _), Option.some_bind]
  exact utf16LeDecode_encodeUtf16Le _

/-- C7: a transport error while uploading a script or while executing the
update script is surfaced immediately as the orchestration's fatal result,
with no retry and no further loop iteration. -/
theorem transport_error_fatal (cfg : Config) (env : ProvisionEnv) :
    (∀ e, env.uploadResult 0 = some e →
      ∀ fuel, Provision cfg env fuel = ([.upload 0], .fatal (.transport e))) ∧
    (∀ e, env.uploadResult 0 = none → env.uploadResult 1 = some e →
      ∀ fuel, Provision cfg env fuel = ([.upload 0, .upload 1], .fatal (.transport e))) ∧
    (∀ e, env.uploadResult 0 = none → env.uploadResult 1 = none →
      env.uploadResult 2 = some e →
      ∀ fuel, Provision cfg env fuel =
        ([.upload 0, .upload 1, .upload 2], .fatal (.transport e))) ∧
    (∀ e (i fuel : Nat), env.updateRun i = .err e →
      provisionLoop cfg env i (fuel + 1) = ([.upd], .fatal (.transport e))) := by
  refine ⟨?_, ?_, ?_, ?_⟩
  · intro e h fuel
    rw [Provision.eq_def]
    dsimp only
    rw [h]
  · intro e h0 h1 fuel
    rw [Provision.eq_def]
    dsimp only
    rw [h0]
    dsimp only
    rw [h1]
  · intro e h0 h1 h2 fuel
    rw [Provision.eq_def]
    dsimp only
    rw [h0]
    dsimp only
    rw [h1]
    dsimp only
    rw [h2]
  · intro e i fuel h
    rw [provisionLoop.eq_def]
    dsimp only
    rw [h, show update (.err e) = .error (.transport e) from rfl]

/-- Witness for C7: a failing first upload aborts before any update run. -/
theorem transport_error_fatal_witness :
    Provision cfg0 envUpFail 5 = ([.upload 0], .fatal (.transport "connection reset")) :=
  (transport_error_fatal cfg0 envUpFail).1 "connection reset" rfl 5

/-- C8: the check-only encoder variant produces the same interpreter
invocation with the single reboot-pending-check flag on the same script
path, and its payload omits the update-count limit argument, which the
update variant always carries. -/
theorem check_variant_structure :
    windowsUpdateCheckForRebootRequiredCommand =
      encodedCommandHead ++ base64Encode (encodeUtf16Le checkForRebootRequiredInvocation) ∧
    checkForRebootRequiredInvocation = windowsUpdatePath ++ " -OnlyCheckForRebootRequired" ∧
    utf16LeDecode (encodeUtf16Le checkForRebootRequiredInvocation) =
      some checkForRebootRequiredInvocation ∧
    listHasSeg " -UpdateLimit ".data checkForRebootRequiredInvocation.data = false ∧
    (∀ c : Config,
      listHasSeg " -UpdateLimit ".data (windowsUpdateInvocation c).data = true) := by
  refine ⟨rfl, rfl, utf16LeDecode_encodeUtf16Le _, by decide, ?_⟩
  intro c
  show listHasSeg " -UpdateLimit ".data
    ((((windowsUpdatePath.data ++ (searchCriteriaArgument c.searchCriteria).data) ++
      (filtersArgument c.filters).data) ++ " -UpdateLimit ".data) ++
      (toString c.updateLimit).data) = true
  rw [List.append_assoc]
  exact listHasSeg_append_left _ _ _ (listHasSeg_self_append _ _)

/-- C9: after successful configuration decoding, Prepare turns a zero
restart timeout into 4 hours, an empty username into "SYSTEM" and a zero
update limit into 1000, and leaves every already-set value and every other
field unchanged. -/
theorem prepare_defaults (c : Config) :
    (Prepare c).1.restartTimeout =
      (if c.restartTimeout = 0 then 4 * timeHour else c.restartTimeout) ∧
    (Prepare c).1.username = (if c.username = "" then "SYSTEM" else c.username) ∧
    (Prepare c).1.updateLimit = (if c.updateLimit = 0 then 1000 else c.updateLimit) ∧
    (Prepare c).1.password = c.password ∧
    (Prepare c).1.searchCriteria = c.searchCriteria ∧
    (Prepare c).1.filters = c.filters := by
  by_cases h1 : c.restartTimeout = 0 <;> by_cases h2 : c.username = "" <;>
    by_cases h3 : c.updateLimit = 0 <;>
      simp [Prepare, h1, h2, h3]

/-- C10: the missing-username validation branch is unreachable because the
username is defaulted to "SYSTEM" before the emptiness check, so Prepare
always returns nil after a successful decode. -/
theorem prepare_returns_no_error (c : Config) :
    (Prepare c).2 = none ∧
    ¬ (Prepare c).2 = some "Must supply an 'username'" := by
  have h : (Prepare c).2 = none := by
    by_cases h1 : c.restartTimeout = 0 <;> by_cases h2 : c.username = "" <;>
      by_cases h3 : c.updateLimit = 0 <;>
        simp [Prepare, h1, h2, h3]
  refine ⟨h, ?_⟩
  rw [h]
  exact fun hc => Option.noConfusion hc

end WindowsUpdate
